import Mathlib

/-!
Shallow embedding of the khoj-zh Obsidian plugin's configuration logic:
the i18n translation lookup (src/interface/obsidian/src/i18n.ts) and the
settings-tab reconciliation, folder-scope, and sync-progress logic
(src/interface/obsidian/src/settings.ts), with theorems checking the
specified properties against these definitions.
-/

namespace Khoj

/-! ## i18n embedding (i18n.ts) -/

/-- Supported language codes, from `type LanguageCode = 'en' | 'zh-CN' | 'zh'`. -/
inductive LanguageCode where
  | en : LanguageCode
  | zhCN : LanguageCode
  | zh : LanguageCode
deriving DecidableEq

/-- A node of a translation dictionary: in the source, a value of type
`string | TranslationDict`. Interior nodes carry the dictionary's
key/value entries as an association list. -/
inductive TransNode where
  | leaf : String → TransNode
  | node : List (String × TransNode) → TransNode

/-- A `TranslationDict` is an object mapping string keys to nodes. -/
abbrev TransDict := List (String × TransNode)

/-- Property lookup `k in value` followed by `value[k]` on a dictionary. -/
def lookupEntry (es : TransDict) (k : String) : Option TransNode :=
  (es.find? (fun p => p.1 == k)).map (fun p => p.2)

/-- Split a list of characters at each occurrence of a character, keeping
empty segments, as JavaScript `split` with a one-character separator does.
The result is always nonempty: splitting the empty string yields one
empty segment. -/
def splitChars (sep : Char) : List Char → List (List Char)
  | [] => [[]]
  | c :: rest =>
    let r := splitChars sep rest
    if c = sep then [] :: r
    else
      match r with
      | [] => [[c]]
      | h :: ts => (c :: h) :: ts

/-- Embedding of `key.split('.')`. -/
def splitKey (key : String) : List String :=
  (splitChars '.' key.data).map (fun cs => String.mk cs)

/-- The segment-descent loop shared by `t` and `hasTranslation`: starting
from `v`, consume one segment per step; descend when the current value is
a dictionary containing the segment, otherwise miss. Returns the value
reached after all segments, or `none` on a miss at any depth. -/
def walk : TransNode → List String → Option TransNode
  | v, [] => some v
  | TransNode.leaf _, _ :: _ => none
  | TransNode.node es, k :: rest =>
    match lookupEntry es k with
    | some v => walk v rest
    | none => none

/-- The walk, refined to a hit only when it ends at a string leaf
(the source's final `typeof value === 'string'` check). -/
def walkString (d : TransDict) (segs : List String) : Option String :=
  match walk (TransNode.node d) segs with
  | some (TransNode.leaf s) => some s
  | _ => none

/-- The static translation registry `translations`: English is the empty
dictionary, and both `zh-CN` and `zh` map to the imported `zhCN`
dictionary (whose content lives outside this module and is therefore a
parameter). -/
def translationsReg (zhCNDict : TransDict) : LanguageCode → TransDict
  | LanguageCode.en => []
  | LanguageCode.zhCN => zhCNDict
  | LanguageCode.zh => zhCNDict

/-- Effective language `lang || currentLanguage`. -/
def effLanguage (current : LanguageCode) (lang : Option LanguageCode) : LanguageCode :=
  lang.getD current

/-- Embedding of `t(key, lang?)`: for English return the key itself;
otherwise walk the selected language's dictionary along the dotted path,
returning the string found or the original key on any miss or on a
terminal that is not a string. The registry and current language are the
module-level state, passed explicitly. -/
def t (reg : LanguageCode → TransDict) (current : LanguageCode)
    (key : String) (lang : Option LanguageCode) : String :=
  match effLanguage current lang with
  | LanguageCode.en => key
  | language =>
    match walkString (reg language) (splitKey key) with
    | some s => s
    | none => key

/-- Embedding of `hasTranslation(key, lang?)`: the same walk over the
selected language's dictionary, reporting whether it ends at a string. -/
def hasTranslation (reg : LanguageCode → TransDict) (current : LanguageCode)
    (key : String) (lang : Option LanguageCode) : Bool :=
  (walkString (reg (effLanguage current lang)) (splitKey key)).isSome

/-! ## Settings embedding (settings.ts) -/

/-- Chat model option `{id: string, name: string}`. -/
structure ModelOption where
  id : String
  name : String
deriving DecidableEq

/-- The slice of `ServerUserConfig` the plugin reads. In the source the
field is `selected_chat_model_config?: number`; `none` stands for both
`undefined` and `null`, which the code tests for together. -/
structure ServerUserConfig where
  selected_chat_model_config : Option Int
deriving DecidableEq

/-- The slice of `KhojSetting` that the verified logic reads and writes. -/
structure Settings where
  connectedToBackend : Bool
  availableChatModels : List ModelOption
  selectedChatModelId : Option String
  syncFolders : List String
  excludeFolders : List String
deriving DecidableEq

/-- The corresponding slice of `DEFAULT_SETTINGS`. -/
def DEFAULT_SETTINGS : Settings :=
  { connectedToBackend := false
    availableChatModels := []
    selectedChatModelId := none
    syncFolders := []
    excludeFolders := [] }

/-- The API-key / URL `onChange` handlers after `canConnectToBackend`
resolves: store the probe's `connected` flag, and when it is false clear
the model list and the selection. -/
def applyProbeResult (connected : Bool) (s : Settings) : Settings :=
  let s1 := { s with connectedToBackend := connected }
  if !connected then
    { s1 with availableChatModels := [], selectedChatModelId := none }
  else s1

/-- Embedding of `refreshModelsAndServerPreference`. The two awaited
fetch results (`fetchChatModels` and `fetchUserServerSettings`) are
passed in as `fetchedModels` and `serverConfig`; `serverConfig = none`
stands for a falsy response object. -/
def refreshModelsAndServerPreference (fetchedModels : List ModelOption)
    (serverConfig : Option ServerUserConfig) (s : Settings) : Settings :=
  if s.connectedToBackend then
    let s1 := { s with availableChatModels := fetchedModels }
    let serverSelectedModelId : Option String :=
      match serverConfig with
      | some cfg =>
        match cfg.selected_chat_model_config with
        | some n =>
          let serverModelIdStr := toString n
          if s1.availableChatModels.any (fun m => m.id == serverModelIdStr) then
            some serverModelIdStr
          else
            none
        | none => none
      | none => none
    { s1 with selectedChatModelId := serverSelectedModelId }
  else
    { s with availableChatModels := [], selectedChatModelId := none }

/-- A credential or URL edit: apply the probe result, then run
`refreshModelsAndServerPreference` with whatever the two fetches would
produce (they are not consulted when disconnected). -/
def onCredentialsChanged (probeConnected : Bool) (fetchedModels : List ModelOption)
    (serverConfig : Option ServerUserConfig) (s : Settings) : Settings :=
  refreshModelsAndServerPreference fetchedModels serverConfig
    (applyProbeResult probeConnected s)

/-- The spec phrase for the server's remembered preference: its id
converted to string form, or absent. -/
def serverIdOf (serverConfig : Option ServerUserConfig) : Option String :=
  (serverConfig.bind (fun cfg => cfg.selected_chat_model_config)).map (fun n => toString n)

/-- Modelled from the spec: `updateServerChatModel` lives in utils.ts,
outside the embedded sources. Per the external-interface contract
`pushServerPreference(modelId, config) -> bool` and the reconciler rule
that local state reflects the newly chosen id once a push succeeds, a
successful push commits `modelId` as the local selection and reports
`true`; a failed push changes nothing and reports `false`. The push
outcome is passed in as `pushSucceeds`. -/
def updateServerChatModel (pushSucceeds : Bool) (modelId : String) (s : Settings) :
    Bool × Settings :=
  if pushSucceeds then
    (true, { s with selectedChatModelId := some modelId })
  else
    (false, s)

/-- The dropdown `onChange` handler in `renderChatModelDropdown`: push the
chosen `value`; on failure set the dropdown back to the stored selection
(empty string for null). Returns the settings after the handler and the
value the dropdown displays when it finishes. -/
def chatModelOnChange (pushSucceeds : Bool) (value : String) (s : Settings) :
    Settings × String :=
  let r := updateServerChatModel pushSucceeds value s
  if r.1 then
    (r.2, value)
  else
    (r.2, r.2.selectedChatModelId.getD (""))

/-- The include-folder add handler: append the chosen folder unless it is
already present. -/
def addIncludeFolder (folder : String) (s : Settings) : Settings :=
  if s.syncFolders.contains folder then s
  else { s with syncFolders := s.syncFolders ++ [folder] }

/-- The include-folder remove handler: keep the entries different from
the removed folder. -/
def removeIncludeFolder (folder : String) (s : Settings) : Settings :=
  { s with syncFolders := s.syncFolders.filter (fun f => f != folder) }

/-- The exclude-folder add handler: reject the root folder (empty string)
with a notice and no state change; otherwise append the folder unless
already present. The second component lists the notices raised, by
translation key. -/
def addExcludeFolder (folder : String) (s : Settings) : Settings × List String :=
  if folder = "" then
    (s, [("settings.excludeFolders.cannotExcludeRoot")])
  else if s.excludeFolders.contains folder then (s, [])
  else ({ s with excludeFolders := s.excludeFolders ++ [folder] }, [])

/-- The exclude-folder remove handler. -/
def removeExcludeFolder (folder : String) (s : Settings) : Settings :=
  { s with excludeFolders := s.excludeFolders.filter (fun f => f != folder) }

/-- One user action on the folder-scope configuration. -/
inductive FolderOp where
  | addInclude : String → FolderOp
  | removeInclude : String → FolderOp
  | addExclude : String → FolderOp
  | removeExclude : String → FolderOp

/-- Apply one folder-scope action to the settings. -/
def applyFolderOp (s : Settings) : FolderOp → Settings
  | FolderOp.addInclude f => addIncludeFolder f s
  | FolderOp.removeInclude f => removeIncludeFolder f s
  | FolderOp.addExclude f => (addExcludeFolder f s).1
  | FolderOp.removeExclude f => removeExcludeFolder f s

/-- Apply a sequence of folder-scope actions. -/
def applyFolderOps (s : Settings) (ops : List FolderOp) : Settings :=
  ops.foldl applyFolderOp s

/-- The force-sync `onProgress` callback: the displayed maximum is
`Math.max(total, 1)` and the displayed value is
`Math.min(processed, max)`. Returns the pair (max, value). -/
def onProgress (processed total : Int) : Int × Int :=
  let m := max total 1
  (m, min processed m)

/-- The pieces of UI state the force-sync click handler manipulates. -/
structure SyncUIState where
  buttonDisabled : Bool
  timerActive : Bool
  progressVisible : Bool
  progressValue : Int
  progressMax : Int
deriving DecidableEq

/-- The force-sync click handler around `updateContentIndex`: disable the
control, start the cosmetic-indicator timer, show the progress display,
run the index update (its outcome passed in as `outcome`), and in the
`finally` block hide the progress display, cancel the timer and re-enable
the control. Returns the final UI state, the resulting `lastSync` map
(updated only on success), and the propagated error if any. -/
def forceSyncClick (outcome : Except String (List (String × Nat)))
    (ui : SyncUIState) (lastSync : List (String × Nat)) :
    SyncUIState × List (String × Nat) × Option String :=
  let ui1 := { ui with
    buttonDisabled := true
    timerActive := true
    progressVisible := true
    progressValue := 0
    progressMax := 1 }
  let tryResult : List (String × Nat) × Option String :=
    match outcome with
    | Except.ok ls => (ls, none)
    | Except.error e => (lastSync, some e)
  let ui2 := { ui1 with
    progressVisible := false
    timerActive := false
    buttonDisabled := false }
  (ui2, tryResult.1, tryResult.2)

/-! ## Helper lemmas -/

theorem splitChars_ne_nil (sep : Char) (cs : List Char) : splitChars sep cs ≠ [] := by
  induction cs with
  | nil => simp [splitChars]
  | cons c rest ih =>
    simp only [splitChars]
    split
    · simp
    · cases h : splitChars sep rest with
      | nil => simp
      | cons hd tl => simp [h]

theorem splitKey_ne_nil (key : String) : splitKey key ≠ [] := by
  simp [splitKey, List.map_eq_nil_iff]
  exact splitChars_ne_nil '.' key.data

theorem walkString_nil_dict (segs : List String) (hs : segs ≠ []) :
    walkString [] segs = none := by
  cases segs with
  | nil => exact absurd rfl hs
  | cons k rest => simp [walkString, walk, lookupEntry]

theorem walkString_eq_none_iff (d : TransDict) (segs : List String) :
    walkString d segs = none ↔ ∀ s, walk (TransNode.node d) segs ≠ some (TransNode.leaf s) := by
  unfold walkString
  cases h : walk (TransNode.node d) segs with
  | none => simp
  | some v =>
    cases v with
    | leaf s => simp
    | node es => simp

theorem applyFolderOp_nodup (s : Settings) (op : FolderOp)
    (h1 : s.syncFolders.Nodup) (h2 : s.excludeFolders.Nodup) :
    (applyFolderOp s op).syncFolders.Nodup ∧ (applyFolderOp s op).excludeFolders.Nodup := by
  cases op with
  | addInclude f =>
    by_cases hmem : f ∈ s.syncFolders
    · simp [applyFolderOp, addIncludeFolder, hmem, h1, h2]
    · have he : (applyFolderOp s (FolderOp.addInclude f)).syncFolders =
          s.syncFolders ++ [f] := by
        simp [applyFolderOp, addIncludeFolder, hmem]
      have he2 : (applyFolderOp s (FolderOp.addInclude f)).excludeFolders =
          s.excludeFolders := by
        simp [applyFolderOp, addIncludeFolder, hmem]
      rw [he, he2, ← List.concat_eq_append]
      exact ⟨List.Nodup.concat hmem h1, h2⟩
  | removeInclude f =>
    exact ⟨List.Nodup.filter _ h1, h2⟩
  | addExclude f =>
    by_cases hroot : f = ""
    · simp [applyFolderOp, addExcludeFolder, hroot, h1, h2]
    · by_cases hmem : f ∈ s.excludeFolders
      · simp [applyFolderOp, addExcludeFolder, hroot, hmem, h1, h2]
      · have he : (applyFolderOp s (FolderOp.addExclude f)).syncFolders =
            s.syncFolders := by
          simp [applyFolderOp, addExcludeFolder, hroot, hmem]
        have he2 : (applyFolderOp s (FolderOp.addExclude f)).excludeFolders =
            s.excludeFolders ++ [f] := by
          simp [applyFolderOp, addExcludeFolder, hroot, hmem]
        rw [he, he2, ← List.concat_eq_append]
        exact ⟨h1, List.Nodup.concat hmem h2⟩
  | removeExclude f =>
    exact ⟨h1, List.Nodup.filter _ h2⟩

/-! ## Claim theorems -/

/-- C1: on a connected refresh, the fetched list becomes
`availableChatModels`; when the server's remembered preference (in string
form) is present and matches an id in that fetched list the selection
becomes that id, and otherwise (absent, null, or not found) the selection
becomes null. -/
theorem c1_model_preference_reconciliation (fetchedModels : List ModelOption)
    (serverConfig : Option ServerUserConfig) (s : Settings)
    (hc : s.connectedToBackend = true) :
    (refreshModelsAndServerPreference fetchedModels serverConfig s).availableChatModels =
      fetchedModels ∧
    (∀ sid, serverIdOf serverConfig = some sid →
      (fetchedModels.any (fun m => m.id == sid) = true →
        (refreshModelsAndServerPreference fetchedModels serverConfig s).selectedChatModelId =
          some sid) ∧
      (fetchedModels.any (fun m => m.id == sid) = false →
        (refreshModelsAndServerPreference fetchedModels serverConfig s).selectedChatModelId =
          none)) ∧
    (serverIdOf serverConfig = none →
      (refreshModelsAndServerPreference fetchedModels serverConfig s).selectedChatModelId =
        none) := by
  cases serverConfig with
  | none =>
    simp [refreshModelsAndServerPreference, serverIdOf, hc]
  | some cfg =>
    cases hm : cfg.selected_chat_model_config with
    | none =>
      simp [refreshModelsAndServerPreference, serverIdOf, hc, hm]
    | some n =>
      cases hany : fetchedModels.any (fun m => m.id == toString n) with
      | true =>
        simp [refreshModelsAndServerPreference, serverIdOf, hc, hm, hany]
        simpa using hany
      | false =>
        simp [refreshModelsAndServerPreference, serverIdOf, hc, hm, hany]
        simpa using hany

/-- Witness for C1: connected, fetched models with ids 1 and 2, server
preference 7 absent from the list, so the selection falls back to null. -/
theorem c1_model_preference_reconciliation_witness :
    (refreshModelsAndServerPreference
        [⟨("1"), ("one")⟩, ⟨("2"), ("two")⟩] (some ⟨some 7⟩)
        { DEFAULT_SETTINGS with connectedToBackend := true }).availableChatModels =
      [⟨("1"), ("one")⟩, ⟨("2"), ("two")⟩] ∧
    (refreshModelsAndServerPreference
        [⟨("1"), ("one")⟩, ⟨("2"), ("two")⟩] (some ⟨some 7⟩)
        { DEFAULT_SETTINGS with connectedToBackend := true }).selectedChatModelId = none := by
  have h := c1_model_preference_reconciliation
    [⟨("1"), ("one")⟩, ⟨("2"), ("two")⟩] (some ⟨some 7⟩)
    { DEFAULT_SETTINGS with connectedToBackend := true } rfl
  exact ⟨h.1, (h.2.1 ("7") rfl).2 rfl⟩

/-- C2: a user-initiated selection change pushes the chosen id; on a
failed push the settings are unchanged and the dropdown reverts to the
stored selection, and on a successful push the stored selection becomes
the chosen id, which the dropdown keeps displaying. -/
theorem c2_selection_change_push (value : String) (s : Settings) :
    chatModelOnChange false value s = (s, s.selectedChatModelId.getD ("")) ∧
    (chatModelOnChange true value s).1.selectedChatModelId = some value ∧
    (chatModelOnChange true value s).2 = value := by
  refine ⟨?_, ?_, ?_⟩ <;> simp [chatModelOnChange, updateServerChatModel]

/-- C3: whichever way the state becomes disconnected — a failed probe
after a credential edit, or a refresh that runs while disconnected — the
model list becomes empty and the selection becomes null, for every prior
state. -/
theorem c3_disconnection_reset (s : Settings) (fetchedModels : List ModelOption)
    (serverConfig : Option ServerUserConfig) :
    ((onCredentialsChanged false fetchedModels serverConfig s).availableChatModels = [] ∧
      (onCredentialsChanged false fetchedModels serverConfig s).selectedChatModelId = none) ∧
    ((refreshModelsAndServerPreference fetchedModels serverConfig
        { s with connectedToBackend := false }).availableChatModels = [] ∧
      (refreshModelsAndServerPreference fetchedModels serverConfig
        { s with connectedToBackend := false }).selectedChatModelId = none) ∧
    ((applyProbeResult false s).availableChatModels = [] ∧
      (applyProbeResult false s).selectedChatModelId = none) := by
  simp [onCredentialsChanged, refreshModelsAndServerPreference, applyProbeResult]

/-- C4 counterexample: adding the same folder to the include set and then
to the exclude set leaves it a member of both, so the two sets are not
kept disjoint. -/
theorem c4_disjointness_counterexample :
    ("a") ∈ (applyFolderOps DEFAULT_SETTINGS
        [FolderOp.addInclude ("a"), FolderOp.addExclude ("a")]).syncFolders ∧
    ("a") ∈ (applyFolderOps DEFAULT_SETTINGS
        [FolderOp.addInclude ("a"), FolderOp.addExclude ("a")]).excludeFolders := by
  decide

/-- C4 amended: the add and remove handlers keep each folder list
individually duplicate-free from any duplicate-free start (adds are
idempotent, removes drop every occurrence), but they do not maintain
disjointness between the include and exclude sets. -/
theorem c4_folder_sets_nodup (ops : List FolderOp) (s : Settings)
    (h1 : s.syncFolders.Nodup) (h2 : s.excludeFolders.Nodup) :
    (applyFolderOps s ops).syncFolders.Nodup ∧
      (applyFolderOps s ops).excludeFolders.Nodup := by
  induction ops generalizing s with
  | nil => exact ⟨h1, h2⟩
  | cons op rest ih =>
    have hstep := applyFolderOp_nodup s op h1 h2
    exact ih (applyFolderOp s op) hstep.1 hstep.2

/-- Witness for the amended C4 at a concrete operation sequence. -/
theorem c4_folder_sets_nodup_witness :
    DEFAULT_SETTINGS.syncFolders.Nodup ∧ DEFAULT_SETTINGS.excludeFolders.Nodup ∧
    ((applyFolderOps DEFAULT_SETTINGS
        [FolderOp.addInclude ("a"), FolderOp.addInclude ("a"),
          FolderOp.addExclude ("b"), FolderOp.removeInclude ("a")]).syncFolders.Nodup ∧
      (applyFolderOps DEFAULT_SETTINGS
        [FolderOp.addInclude ("a"), FolderOp.addInclude ("a"),
          FolderOp.addExclude ("b"), FolderOp.removeInclude ("a")]).excludeFolders.Nodup) :=
  ⟨by decide, by decide,
    c4_folder_sets_nodup
      [FolderOp.addInclude ("a"), FolderOp.addInclude ("a"),
        FolderOp.addExclude ("b"), FolderOp.removeInclude ("a")]
      DEFAULT_SETTINGS (by decide) (by decide)⟩

/-- C5: adding the empty string to the exclude set raises a notice and
leaves the settings unchanged; any other folder ends up in the exclude
set after its add, and every folder (the root included) ends up in the
include set after its add, with no further validation. -/
theorem c5_root_exclusion_rejected (s : Settings) (f : String) (hf : f ≠ ("")) :
    (addExcludeFolder ("") s).1 = s ∧
    (addExcludeFolder ("") s).2 ≠ [] ∧
    f ∈ (addExcludeFolder f s).1.excludeFolders ∧
    f ∈ (addIncludeFolder f s).syncFolders ∧
    ("") ∈ (addIncludeFolder ("") s).syncFolders := by
  refine ⟨rfl, by simp [addExcludeFolder], ?_, ?_, ?_⟩
  · by_cases hmem : f ∈ s.excludeFolders
    · simp [addExcludeFolder, hf, hmem]
    · simp [addExcludeFolder, hf, hmem]
  · by_cases hmem : f ∈ s.syncFolders
    · simp [addIncludeFolder, hmem]
    · simp [addIncludeFolder, hmem]
  · by_cases hmem : ("") ∈ s.syncFolders
    · simp [addIncludeFolder, hmem]
    · simp [addIncludeFolder, hmem]

/-- Witness for C5 at a concrete folder and state. -/
theorem c5_root_exclusion_rejected_witness :
    (addExcludeFolder ("") DEFAULT_SETTINGS).1 = DEFAULT_SETTINGS ∧
    ("a") ∈ (addExcludeFolder ("a") DEFAULT_SETTINGS).1.excludeFolders :=
  have h := c5_root_exclusion_rejected DEFAULT_SETTINGS ("a") (by decide)
  ⟨h.1, h.2.2.1⟩

/-- C6: every progress callback with nonnegative counts displays maximum
`max(total, 1)`, never zero, and displays value `min(processed, max)`,
itself nonnegative; in particular (processed 50, total 10) displays
value 10 and (processed 0, total 0) displays maximum 1. -/
theorem c6_progress_display (processed total : Int)
    (h1 : 0 ≤ processed) (_h2 : 0 ≤ total) :
    (onProgress processed total).1 = max total 1 ∧
    (onProgress processed total).1 ≠ 0 ∧
    (onProgress processed total).2 = min processed (onProgress processed total).1 ∧
    0 ≤ (onProgress processed total).2 ∧
    onProgress 50 10 = (10, 10) ∧
    onProgress 0 0 = (1, 0) := by
  refine ⟨rfl, ?_, rfl, ?_, by decide, by decide⟩
  · have hmax : (1 : Int) ≤ max total 1 := le_max_right total 1
    simp only [onProgress]
    omega
  · have hmax : (0 : Int) ≤ max total 1 := le_trans (by norm_num) (le_max_right total 1)
    simp only [onProgress]
    exact le_min h1 hmax

/-- Witness for C6 at concrete nonnegative counts. -/
theorem c6_progress_display_witness :
    (onProgress 50 10).1 = max 10 1 ∧ (onProgress 50 10).1 ≠ 0 ∧
    0 ≤ (onProgress 50 10).2 :=
  have h := c6_progress_display 50 10 (by decide) (by decide)
  ⟨h.1, h.2.1, h.2.2.2.1⟩

/-- C7: whatever the index update does — return the new sync state or
throw — the click handler's final state has the progress display hidden,
the indicator timer canceled and the control re-enabled, and a failure
still propagates (with the sync state unchanged) after that teardown. -/
theorem c7_teardown_on_every_exit (outcome : Except String (List (String × Nat)))
    (ui : SyncUIState) (lastSync : List (String × Nat)) :
    (forceSyncClick outcome ui lastSync).1.progressVisible = false ∧
    (forceSyncClick outcome ui lastSync).1.timerActive = false ∧
    (forceSyncClick outcome ui lastSync).1.buttonDisabled = false ∧
    (∀ e, outcome = Except.error e →
      (forceSyncClick outcome ui lastSync).2.2 = some e ∧
      (forceSyncClick outcome ui lastSync).2.1 = lastSync) ∧
    (∀ v, outcome = Except.ok v →
      (forceSyncClick outcome ui lastSync).2.2 = none ∧
      (forceSyncClick outcome ui lastSync).2.1 = v) := by
  cases outcome <;> simp [forceSyncClick]

/-- Witness for C7 on a throwing index update. -/
theorem c7_teardown_on_every_exit_witness :
    (forceSyncClick (Except.error ("boom")) ⟨true, true, true, 0, 1⟩ []).1.progressVisible =
      false ∧
    (forceSyncClick (Except.error ("boom")) ⟨true, true, true, 0, 1⟩ []).1.timerActive =
      false ∧
    (forceSyncClick (Except.error ("boom")) ⟨true, true, true, 0, 1⟩ []).1.buttonDisabled =
      false ∧
    (forceSyncClick (Except.error ("boom")) ⟨true, true, true, 0, 1⟩ []).2.2 =
      some ("boom") :=
  have h := c7_teardown_on_every_exit (Except.error ("boom")) ⟨true, true, true, 0, 1⟩ []
  ⟨h.1, h.2.1, h.2.2.1, (h.2.2.2.1 ("boom") rfl).1⟩

/-- C8: translation lookup is total with lossless fallback: for every
registry, key and language, if the dotted-path walk misses at any depth
or terminates at a node that is not a string leaf, `t` returns the
original key unchanged (and, being a total function, never throws). -/
theorem c8_translate_total_fallback (reg : LanguageCode → TransDict)
    (current : LanguageCode) (key : String) (lang : Option LanguageCode)
    (h : ∀ s, walk (TransNode.node (reg (effLanguage current lang))) (splitKey key) ≠
      some (TransNode.leaf s)) :
    t reg current key lang = key := by
  have hnone : walkString (reg (effLanguage current lang)) (splitKey key) = none :=
    (walkString_eq_none_iff _ _).mpr h
  cases heff : effLanguage current lang with
  | en => simp [t, heff]
  | zhCN =>
    rw [heff] at hnone
    simp [t, heff, hnone]
  | zh =>
    rw [heff] at hnone
    simp [t, heff, hnone]

/-- Witness for C8 at a concrete registry and key missing from it. -/
theorem c8_translate_total_fallback_witness :
    t (translationsReg [((("a") : String), TransNode.leaf ("x"))])
      LanguageCode.zhCN ("b") none = ("b") := by
  apply c8_translate_total_fallback
  intro s hcontra
  have hnone : walk
      (TransNode.node (translationsReg [((("a") : String), TransNode.leaf ("x"))]
        (effLanguage LanguageCode.zhCN none)))
      (splitKey ("b")) = none := rfl
  rw [hnone] at hcontra
  exact Option.noConfusion hcontra

/-- C9: against the actual registry (English empty, `zh-CN` and `zh`
sharing the imported dictionary), `hasTranslation` returns true exactly
when the identical dotted-path walk ends at a string leaf, and in that
case `t` returns that very string. -/
theorem c9_hasTranslation_iff_string_leaf (zhCNDict : TransDict)
    (current : LanguageCode) (key : String) (lang : Option LanguageCode) :
    hasTranslation (translationsReg zhCNDict) current key lang = true ↔
      ∃ s, walkString (translationsReg zhCNDict (effLanguage current lang)) (splitKey key) =
          some s ∧
        t (translationsReg zhCNDict) current key lang = s := by
  cases heff : effLanguage current lang with
  | en =>
    have hn : walkString ([] : TransDict) (splitKey key) = none :=
      walkString_nil_dict _ (splitKey_ne_nil key)
    simp [hasTranslation, heff, translationsReg, hn]
  | zhCN =>
    cases hw : walkString (translationsReg zhCNDict LanguageCode.zhCN) (splitKey key) with
    | none => simp [hasTranslation, heff, hw]
    | some s => simp [hasTranslation, heff, hw, t]
  | zh =>
    cases hw : walkString (translationsReg zhCNDict LanguageCode.zh) (splitKey key) with
    | none => simp [hasTranslation, heff, hw]
    | some s => simp [hasTranslation, heff, hw, t]

/-- C10: for every key, `hasTranslation` with language `en` is false,
because the English registry entry is the empty dictionary, even though
`t` with language `en` returns the key itself. -/
theorem c10_en_never_reports_hit (zhCNDict : TransDict)
    (current : LanguageCode) (key : String) :
    hasTranslation (translationsReg zhCNDict) current key (some LanguageCode.en) = false ∧
      t (translationsReg zhCNDict) current key (some LanguageCode.en) = key := by
  have hn : walkString ([] : TransDict) (splitKey key) = none :=
    walkString_nil_dict _ (splitKey_ne_nil key)
  constructor
  · simp [hasTranslation, effLanguage, translationsReg, hn]
  · simp [t, effLanguage]

end Khoj
